import Mathlib

/-!
Shallow embedding of the CO₂ dashboard's data-selection and ranking logic
(`streamlit_main_findings.py`): load/validate/clean, the Section 8 top-absolute
ranking, the Section 9 trend comparison, and the Section 10 per-capita ranking.
Floats are modelled as rationals, nullable columns as `Option`, and pandas
`nlargest` (keep='first') as a stable insertion sort descending followed by `take`.
-/

namespace CO2Dash

/-- A raw CSV row before cleaning: every field may be missing (NaN). -/
structure RawRecord where
  country : Option String
  year : Option ℚ
  co2 : Option ℚ
  co2_per_capita : Option ℚ
  iso_code : Option String
  population : Option ℚ
deriving DecidableEq, Repr

/-- A cleaned row: `country` and `year` are non-null (rows failing that were
dropped) and `year` has been coerced to an integer, as in
`co2.dropna(subset=["country","year"])` followed by `astype(int)`. -/
structure Record where
  country : String
  year : Int
  co2 : Option ℚ
  co2_per_capita : Option ℚ
  iso_code : Option String
  population : Option ℚ
deriving DecidableEq, Repr

/-- The raw parsed CSV: its column names and its rows. -/
structure RawTable where
  cols : List String
  rows : List RawRecord
deriving DecidableEq, Repr

/-- The in-memory dataset after validation and cleaning. `hasIso` and `hasPop`
record whether the optional `iso_code` / `population` columns exist. -/
structure Dataset where
  rows : List Record
  hasIso : Bool
  hasPop : Bool
deriving DecidableEq, Repr

/-- Truncation toward zero, the behaviour of numpy `astype(int)` on floats. -/
def ratToInt (q : ℚ) : Int :=
  q.num.tdiv q.den

/-- One row of `dropna(subset=["country","year"])` + year coercion: kept only
when both `country` and `year` are present. -/
def cleanRow (r : RawRecord) : Option Record :=
  match r.country, r.year with
  | some c, some y =>
      some ⟨c, ratToInt y, r.co2, r.co2_per_capita, r.iso_code, r.population⟩
  | _, _ => none

/-- The load-time basic clean over all rows. -/
def cleanRows (rs : List RawRecord) : List Record :=
  rs.filterMap cleanRow

/-- A load failure: the remote fetch errored, or a required column is absent. -/
inductive LoadError where
  | fetchError (msg : String)
  | missingColumn (c : String)
deriving DecidableEq, Repr

/-- The required columns checked at load, in source order. -/
def requiredCols : List String :=
  ["country", "year", "co2", "co2_per_capita"]

/-- Load + validation + basic clean: fetch failure or the first missing
required column is a blocking `LoadError` (the script calls `st.stop()`);
otherwise the cleaned dataset with its optional-column flags. -/
def loadAndValidate (fetch : Except String RawTable) : Except LoadError Dataset :=
  match fetch with
  | .error msg => .error (.fetchError msg)
  | .ok t =>
      match requiredCols.find? (fun c => !(t.cols.contains c)) with
      | some c => .error (.missingColumn c)
      | none =>
          .ok { rows := cleanRows t.rows
                hasIso := t.cols.contains "iso_code"
                hasPop := t.cols.contains "population" }

/-- Whether `pat` occurs as a contiguous substring of `hay` (over char lists). -/
def subListAt (pat hay : List Char) : Bool :=
  (List.range (hay.length + 1)).any (fun i => decide (pat = (hay.drop i).take pat.length))

/-- Case-insensitive substring containment, modelling
`Series.str.contains(pat, case=False)` for a literal pattern. -/
def containsCI (hay pat : String) : Bool :=
  subListAt (pat.data.map Char.toLower) (hay.data.map Char.toLower)

/-- The aggregate-row test on the country text:
`d["country"].str.contains("World|International", case=False, na=False)`. -/
def isAggCountry (c : String) : Bool :=
  containsCI c "World" || containsCI c "International"

/-- The aggregate-row test on the iso code:
`d["iso_code"].isin(["OWID_WRL","OWID_KOS"])` (null codes are not in the set). -/
def isAggIso (code : Option String) : Bool :=
  decide (code = some "OWID_WRL") || decide (code = some "OWID_KOS")

/-- Stable sort of `l` descending by key `k` (ties keep input order), the
order used by pandas `nlargest` with the default `keep='first'`. -/
def sortDescBy (k : α → ℚ) (l : List α) : List α :=
  List.insertionSort (fun a b => k b ≤ k a) l

/-- Stable sort of `l` ascending by key `k`. -/
def sortAscBy [LinearOrder β] (k : α → β) (l : List α) : List α :=
  List.insertionSort (fun a b => k a ≤ k b) l

/-- pandas `DataFrame.nlargest(n, col)`: rows with a null key are dropped,
the rest sorted descending by the key with ties in input order, first `n` kept. -/
def nlargestBy (k : α → Option ℚ) (n : Nat) (l : List α) : List α :=
  (sortDescBy (fun x => (k x).getD 0) (l.filter (fun x => (k x).isSome))).take n

/-- pandas `Series.median()` over non-null values: `none` when empty, the
middle element for odd length, the mean of the two middles for even length. -/
def medianQ (xs : List ℚ) : Option ℚ :=
  if xs.length = 0 then none
  else
    let s := sortAscBy id xs
    let n := xs.length
    if n % 2 = 1 then some (s.getD (n / 2) 0)
    else some ((s.getD (n / 2 - 1) 0 + s.getD (n / 2) 0) / 2)

/-- The `co2` value of a record whose null `co2` has already been dropped. -/
def co2v (r : Record) : ℚ :=
  (r.co2).getD 0

/-- The `co2_per_capita` value of a record with non-null `co2_per_capita`. -/
def co2pcv (r : Record) : ℚ :=
  (r.co2_per_capita).getD 0

/-- Section 8 filter pipeline (lines 55-59): keep the ranking year, drop
aggregate country names, drop aggregate iso codes when the column exists,
drop null `co2`. -/
def absFiltered (ds : Dataset) (y : Int) : List Record :=
  let d1 := ds.rows.filter (fun r => decide (r.year = y))
  let d2 := d1.filter (fun r => !(isAggCountry r.country))
  let d3 := if ds.hasIso then d2.filter (fun r => !(isAggIso r.iso_code)) else d2
  d3.filter (fun r => (r.co2).isSome)

/-- The Section 8 result: the top-10 table plus the two side metrics computed
over the filtered set `d` (`d['co2'].sum()`, `d['co2'].median()`). -/
structure Tab8Out where
  top : List Record
  sumCo2 : ℚ
  medianCo2 : Option ℚ
deriving DecidableEq, Repr

/-- Section 8, "Top Emitters": rank the filtered rows by `co2` and report the
sum and median of `co2` over the filtered set. -/
def topAbsoluteEmitters (ds : Dataset) (y : Int) : Tab8Out :=
  let d := absFiltered ds y
  { top := nlargestBy (fun r => r.co2) 10 d
    sumCo2 := (d.map co2v).sum
    medianCo2 := medianQ (d.map co2v) }

/-- Section 9 comparison pool (line 89): countries of the raw per-year top-8
by `co2` — no aggregate exclusion is applied here. -/
def trendPool (ds : Dataset) (rankingYear : Int) : List String :=
  (nlargestBy (fun r => r.co2) 8
      (ds.rows.filter (fun r => decide (r.year = rankingYear)))).map (fun r => r.country)

/-- Section 9 peers (line 90): the pool minus the focus country, first 5 kept. -/
def trendComps (ds : Dataset) (focus : String) (rankingYear : Int) : List String :=
  ((trendPool ds rankingYear).filter (fun c => !(decide (c = focus)))).take 5

/-- Section 9 row subset (lines 94-95): years within the inclusive range and
country among focus plus peers. -/
def trendSubset (ds : Dataset) (countries : List String) (yrMin yrMax : Int) : List Record :=
  (ds.rows.filter (fun r => decide (yrMin ≤ r.year) && decide (r.year ≤ yrMax))).filter
    (fun r => decide (r.country ∈ countries))

/-- One plotted series: its country, whether it is the focus (drawn thicker),
and its (year, co2) points. -/
structure SeriesOut where
  country : String
  isFocus : Bool
  points : List (Int × Option ℚ)
deriving DecidableEq, Repr

/-- First-occurrence deduplication, modelling `Series.unique()` order. -/
def uniqueFirst (l : List String) : List String :=
  l.foldl (fun acc x => if x ∈ acc then acc else acc ++ [x]) []

/-- Section 9, "Trends": one series per distinct country of the subset, its
rows sorted ascending by year, the focus country marked. -/
def trendSeries (ds : Dataset) (focus : String) (yrMin yrMax rankingYear : Int) :
    List SeriesOut :=
  let comps := trendComps ds focus rankingYear
  let subset := trendSubset ds (focus :: comps) yrMin yrMax
  (uniqueFirst (subset.map (fun r => r.country))).map (fun c =>
    { country := c
      isFocus := decide (c = focus)
      points := (sortAscBy (fun r => r.year)
          (subset.filter (fun r => decide (r.country = c)))).map (fun r => (r.year, r.co2)) })

/-- The per-capita micro-state filter `d2["population"] > 1e6`: a null
population fails the comparison, as NaN does in pandas. -/
def popGt1M (r : Record) : Bool :=
  match r.population with
  | some p => decide (1000000 < p)
  | none => false

/-- Section 10 filter pipeline (lines 120-123): keep the ranking year, apply
the population filter when the column exists, drop null `co2_per_capita`. -/
def pcFiltered (ds : Dataset) (y : Int) : List Record :=
  let d1 := ds.rows.filter (fun r => decide (r.year = y))
  let d2 := if ds.hasPop then d1.filter popGt1M else d1
  d2.filter (fun r => (r.co2_per_capita).isSome)

/-- Section 10, "Per-capita Rankings": top-10 by `co2_per_capita`. -/
def topPerCapitaEmitters (ds : Dataset) (y : Int) : List Record :=
  nlargestBy (fun r => r.co2_per_capita) 10 (pcFiltered ds y)

/-- The three rendered result sets of one script run. -/
structure AppOutput where
  tab8 : Tab8Out
  tab9 : List SeriesOut
  tab10 : List Record
deriving DecidableEq, Repr

/-- One full run: load/validate/clean, then render the three tabs; a load
failure halts everything (`st.stop()`), so no tab output exists. -/
def runApp (fetch : Except String RawTable) (y : Int) (focus : String)
    (yrMin yrMax : Int) : Except LoadError AppOutput :=
  (loadAndValidate fetch).map (fun ds =>
    { tab8 := topAbsoluteEmitters ds y
      tab9 := trendSeries ds focus yrMin yrMax y
      tab10 := topPerCapitaEmitters ds y })

/-- The Section 8 keep-condition as one predicate: year matched, country not an
aggregate, iso code not an aggregate when the column exists, `co2` non-null. -/
def absKeepPred (hasIso : Bool) (y : Int) (r : Record) : Bool :=
  decide (r.year = y) && !(isAggCountry r.country) &&
    !(hasIso && isAggIso r.iso_code) && (r.co2).isSome

/-- The Section 10 keep-condition as one predicate: year matched, population
above one million when the column exists, `co2_per_capita` non-null. -/
def pcKeepPred (hasPop : Bool) (y : Int) (r : Record) : Bool :=
  decide (r.year = y) && (!hasPop || popGt1M r) && (r.co2_per_capita).isSome

/-- The coercion a raw row undergoes when it survives the basic clean. -/
def forceRow (r : RawRecord) : Record :=
  ⟨r.country.getD "", ratToInt (r.year.getD 0), r.co2, r.co2_per_capita,
    r.iso_code, r.population⟩

/-- A small concrete dataset exercising every filter: two ordinary emitters,
the World aggregate, a micro-state, a row with all-null metrics and a row with
null population. -/
def sampleRows : List Record :=
  [⟨"United States", 2014, some 5000, some 16, some "USA", some 320000000⟩,
   ⟨"China", 2014, some 9000, some 7, some "CHN", some 1360000000⟩,
   ⟨"World", 2014, some 35000, some 5, some "OWID_WRL", none⟩,
   ⟨"Palau", 2014, some 1, some 40, some "PLW", some 50000⟩,
   ⟨"India", 2014, some 2200, some 2, some "IND", some 1250000000⟩,
   ⟨"United States", 2010, some 5400, some 17, some "USA", some 309000000⟩,
   ⟨"China", 2010, some 8000, some 6, some "CHN", some 1340000000⟩,
   ⟨"Mystery", 2014, none, none, none, none⟩,
   ⟨"Nulltopia", 2014, some 10, some 3, none, none⟩]

/-- The sample dataset, with both optional columns present. -/
def sampleDS : Dataset :=
  ⟨sampleRows, true, true⟩

/-! Helper lemmas about the stable sorts and `nlargestBy`. -/

theorem sortDescBy_perm (k : α → ℚ) (l : List α) : List.Perm (sortDescBy k l) l :=
  List.perm_insertionSort _ l

theorem sortAscBy_perm [LinearOrder β] (k : α → β) (l : List α) :
    List.Perm (sortAscBy k l) l :=
  List.perm_insertionSort _ l

theorem sortDescBy_sorted (k : α → ℚ) (l : List α) :
    (sortDescBy k l).Pairwise (fun a b => k b ≤ k a) := by
  haveI : IsTotal α (fun a b => k b ≤ k a) := ⟨fun a b => le_total (k b) (k a)⟩
  haveI : IsTrans α (fun a b => k b ≤ k a) := ⟨fun a b c h1 h2 => le_trans h2 h1⟩
  exact List.sorted_insertionSort _ l

theorem sortAscBy_sorted [LinearOrder β] (k : α → β) (l : List α) :
    (sortAscBy k l).Pairwise (fun a b => k a ≤ k b) := by
  haveI : IsTotal α (fun a b => k a ≤ k b) := ⟨fun a b => le_total (k a) (k b)⟩
  haveI : IsTrans α (fun a b => k a ≤ k b) := ⟨fun a b c h1 h2 => le_trans h1 h2⟩
  exact List.sorted_insertionSort _ l

theorem filter_orderedInsert_of_eq {k : α → ℚ} {q : ℚ} {x : α} (hx : k x = q) :
    ∀ l : List α,
      (List.orderedInsert (fun a b => k b ≤ k a) x l).filter (fun z => decide (k z = q)) =
        x :: l.filter (fun z => decide (k z = q))
  | [] => by simp [List.orderedInsert, hx]
  | y :: ys => by
      simp only [List.orderedInsert]
      by_cases h : k y ≤ k x
      · rw [if_pos h]
        simp [hx]
      · rw [if_neg h]
        have hy : ¬(k y = q) := fun hq => h (le_of_eq (hq.trans hx.symm))
        simp [hy, filter_orderedInsert_of_eq hx ys]

theorem filter_orderedInsert_of_ne {k : α → ℚ} {q : ℚ} {x : α} (hx : ¬(k x = q)) :
    ∀ l : List α,
      (List.orderedInsert (fun a b => k b ≤ k a) x l).filter (fun z => decide (k z = q)) =
        l.filter (fun z => decide (k z = q))
  | [] => by simp [List.orderedInsert, hx]
  | y :: ys => by
      simp only [List.orderedInsert]
      by_cases h : k y ≤ k x
      · rw [if_pos h]
        simp [hx]
      · rw [if_neg h, List.filter_cons, List.filter_cons,
          filter_orderedInsert_of_ne hx ys]

theorem filter_sortDescBy (k : α → ℚ) (q : ℚ) :
    ∀ l : List α,
      (sortDescBy k l).filter (fun z => decide (k z = q)) =
        l.filter (fun z => decide (k z = q))
  | [] => rfl
  | x :: xs => by
      have ih := filter_sortDescBy k q xs
      simp only [sortDescBy] at ih ⊢
      rw [List.insertionSort]
      by_cases hx : k x = q
      · rw [filter_orderedInsert_of_eq hx, ih]
        simp [hx]
      · rw [filter_orderedInsert_of_ne hx, ih]
        simp [hx]

theorem mem_of_mem_nlargestBy {k : α → Option ℚ} {n : Nat} {l : List α} {x : α}
    (hx : x ∈ nlargestBy k n l) : x ∈ l ∧ (k x).isSome := by
  have h1 : x ∈ sortDescBy (fun z => (k z).getD 0) (l.filter (fun z => (k z).isSome)) :=
    (List.take_sublist _ _).subset hx
  have h2 : x ∈ l.filter (fun z => (k z).isSome) := (sortDescBy_perm _ _).subset h1
  simp at h2
  exact h2

theorem length_nlargestBy_le (k : α → Option ℚ) (n : Nat) (l : List α) :
    (nlargestBy k n l).length ≤ n := by
  rw [nlargestBy]
  exact List.length_take_le n _

theorem nlargestBy_sorted (k : α → Option ℚ) (n : Nat) (l : List α) :
    (nlargestBy k n l).Pairwise (fun a b => (k b).getD 0 ≤ (k a).getD 0) :=
  (sortDescBy_sorted _ _).sublist (List.take_sublist _ _)

theorem nlargestBy_largest (k : α → Option ℚ) (n : Nat) (l : List α)
    (hall : ∀ x ∈ l, (k x).isSome) :
    ∃ rest, List.Perm (nlargestBy k n l ++ rest) l ∧
      (∀ a ∈ nlargestBy k n l, ∀ b ∈ rest, (k b).getD 0 ≤ (k a).getD 0) ∧
      (nlargestBy k n l).length = min n l.length := by
  have hid : l.filter (fun z => (k z).isSome) = l := List.filter_eq_self.mpr hall
  refine ⟨(sortDescBy (fun z => (k z).getD 0) l).drop n, ?_, ?_, ?_⟩
  · rw [nlargestBy, hid, List.take_append_drop]
    exact sortDescBy_perm _ l
  · intro a ha b hb
    have hsorted := sortDescBy_sorted (fun z => (k z).getD 0) l
    rw [← List.take_append_drop n (sortDescBy (fun z => (k z).getD 0) l)] at hsorted
    have h3 := (List.pairwise_append.mp hsorted).2.2
    rw [nlargestBy, hid] at ha
    exact h3 a ha b hb
  · rw [nlargestBy, hid, List.length_take, (sortDescBy_perm _ l).length_eq]

theorem nlargestBy_stable (k : α → Option ℚ) (n : Nat) (l : List α) (q : ℚ)
    (hall : ∀ x ∈ l, (k x).isSome) :
    ∃ t, l.filter (fun z => decide ((k z).getD 0 = q)) =
      (nlargestBy k n l).filter (fun z => decide ((k z).getD 0 = q)) ++ t := by
  have hid : l.filter (fun z => (k z).isSome) = l := List.filter_eq_self.mpr (by
    intro a ha
    exact hall a ha)
  have hs := filter_sortDescBy (fun z => (k z).getD 0) q
    (l.filter (fun z => (k z).isSome))
  rw [hid] at hs
  refine ⟨(sortDescBy (fun z => (k z).getD 0) l).drop n |>.filter
    (fun z => decide ((k z).getD 0 = q)), ?_⟩
  rw [← hs]
  rw [nlargestBy, hid]
  rw [← List.filter_append, List.take_append_drop]

/-! Helper lemmas about `uniqueFirst`. -/

theorem mem_foldl_addUnique :
    ∀ (l : List String) (acc : List String) (x : String),
      (x ∈ l.foldl (fun acc x => if x ∈ acc then acc else acc ++ [x]) acc) ↔
        x ∈ acc ∨ x ∈ l
  | [], acc, x => by simp
  | y :: ys, acc, x => by
      rw [List.foldl_cons]
      by_cases h : y ∈ acc
      · rw [if_pos h, mem_foldl_addUnique ys acc x]
        simp only [List.mem_cons]
        constructor
        · rintro (hx | hx)
          · exact Or.inl hx
          · exact Or.inr (Or.inr hx)
        · rintro (hx | hx | hx)
          · exact Or.inl hx
          · exact Or.inl (hx ▸ h)
          · exact Or.inr hx
      · rw [if_neg h, mem_foldl_addUnique ys (acc ++ [y]) x]
        simp only [List.mem_append, List.mem_singleton, List.mem_cons]
        tauto

theorem nodup_foldl_addUnique :
    ∀ (l : List String) (acc : List String), acc.Nodup →
      (l.foldl (fun acc x => if x ∈ acc then acc else acc ++ [x]) acc).Nodup
  | [], acc, h => h
  | y :: ys, acc, h => by
      rw [List.foldl_cons]
      by_cases hy : y ∈ acc
      · rw [if_pos hy]
        exact nodup_foldl_addUnique ys acc h
      · rw [if_neg hy]
        refine nodup_foldl_addUnique ys (acc ++ [y]) ?_
        simp [List.nodup_append, h, hy]

theorem mem_uniqueFirst {l : List String} {x : String} : x ∈ uniqueFirst l ↔ x ∈ l := by
  rw [uniqueFirst, mem_foldl_addUnique]
  simp

theorem nodup_uniqueFirst (l : List String) : (uniqueFirst l).Nodup :=
  nodup_foldl_addUnique l [] List.nodup_nil

theorem length_uniqueFirst_le {l S : List String} (h : ∀ x ∈ l, x ∈ S) :
    (uniqueFirst l).length ≤ S.length :=
  ((nodup_uniqueFirst l).subperm (fun x hx => h x (mem_uniqueFirst.mp hx))).length_le

/-! Pipeline-fusion lemmas: each tab's chain of filters equals one filter by
the corresponding keep-predicate. -/

theorem absFiltered_eq (ds : Dataset) (y : Int) :
    absFiltered ds y = ds.rows.filter (absKeepPred ds.hasIso y) := by
  cases h : ds.hasIso <;>
    simp only [absFiltered, h, if_true, if_false, Bool.false_eq_true, List.filter_filter] <;>
    refine List.filter_congr (fun r hr => ?_) <;>
    simp only [absKeepPred, h] <;>
    cases decide (r.year = y) <;> cases isAggCountry r.country <;>
      cases isAggIso r.iso_code <;> cases (r.co2).isSome <;> rfl

theorem pcFiltered_eq (ds : Dataset) (y : Int) :
    pcFiltered ds y = ds.rows.filter (pcKeepPred ds.hasPop y) := by
  cases h : ds.hasPop <;>
    simp only [pcFiltered, h, if_true, if_false, Bool.false_eq_true, List.filter_filter] <;>
    refine List.filter_congr (fun r hr => ?_) <;>
    simp only [pcKeepPred, h] <;>
    cases decide (r.year = y) <;> cases popGt1M r <;>
      cases (r.co2_per_capita).isSome <;> rfl

theorem cleanRows_eq (rs : List RawRecord) :
    cleanRows rs =
      (rs.filter (fun r => (r.country).isSome && (r.year).isSome)).map forceRow := by
  induction rs with
  | nil => rfl
  | cons r rs ih =>
      cases hc : r.country <;> cases hy : r.year <;>
        simp [cleanRows, cleanRow, hc, hy, forceRow, ih] <;>
        simp [cleanRows, cleanRow, hc, hy] at ih <;> exact ih

theorem mem_absFiltered {ds : Dataset} {y : Int} {r : Record}
    (h : r ∈ absFiltered ds y) :
    r ∈ ds.rows ∧ r.year = y ∧ isAggCountry r.country = false ∧
      (ds.hasIso = true → isAggIso r.iso_code = false) ∧ (r.co2).isSome := by
  rw [absFiltered_eq] at h
  have h2 := List.mem_filter.mp h
  have h3 := h2.2
  simp only [absKeepPred, Bool.and_eq_true, decide_eq_true_eq,
    Bool.not_eq_true'] at h3
  refine ⟨h2.1, h3.1.1.1, h3.1.1.2, ?_, h3.2⟩
  intro hiso
  have h4 := h3.1.2
  rw [hiso, Bool.true_and] at h4
  exact h4

theorem absFiltered_co2_isSome {ds : Dataset} {y : Int} :
    ∀ r ∈ absFiltered ds y, (r.co2).isSome :=
  fun _ hr => (mem_absFiltered hr).2.2.2.2

theorem mem_pcFiltered {ds : Dataset} {y : Int} {r : Record}
    (h : r ∈ pcFiltered ds y) :
    r ∈ ds.rows ∧ r.year = y ∧ (ds.hasPop = true → popGt1M r = true) ∧
      (r.co2_per_capita).isSome := by
  rw [pcFiltered_eq] at h
  have h2 := List.mem_filter.mp h
  have h3 := h2.2
  simp only [pcKeepPred, Bool.and_eq_true, decide_eq_true_eq] at h3
  refine ⟨h2.1, h3.1.1, ?_, h3.2⟩
  intro hpop
  have h4 := h3.1.2
  rw [hpop] at h4
  simp only [Bool.not_true, Bool.false_or] at h4
  exact h4

/-- C1: for every dataset and ranking year, the Section 8 ranking returns at
most 10 records, each of the selected year, sorted by `co2` descending with
ties kept in stable input order, and excludes aggregate country names
(World/International, case-insensitive), aggregate iso codes when the
`iso_code` column exists, and records with null `co2`. -/
theorem topAbsoluteEmitters_spec (ds : Dataset) (y : Int) :
    (topAbsoluteEmitters ds y).top.length ≤ 10 ∧
    (∀ r ∈ (topAbsoluteEmitters ds y).top,
      r.year = y ∧ isAggCountry r.country = false ∧
      (ds.hasIso = true → isAggIso r.iso_code = false) ∧ r.co2 ≠ none) ∧
    ((topAbsoluteEmitters ds y).top.Pairwise (fun a b => co2v b ≤ co2v a)) ∧
    (∀ q : ℚ, ∃ t,
      (ds.rows.filter (absKeepPred ds.hasIso y)).filter (fun r => decide (co2v r = q)) =
        ((topAbsoluteEmitters ds y).top.filter (fun r => decide (co2v r = q))) ++ t) := by
  have htop : (topAbsoluteEmitters ds y).top =
      nlargestBy (fun r => r.co2) 10 (absFiltered ds y) := rfl
  refine ⟨?_, ?_, ?_, ?_⟩
  · rw [htop]
    exact length_nlargestBy_le _ _ _
  · intro r hr
    rw [htop] at hr
    have hm := mem_absFiltered (mem_of_mem_nlargestBy hr).1
    exact ⟨hm.2.1, hm.2.2.1, hm.2.2.2.1, Option.isSome_iff_ne_none.mp hm.2.2.2.2⟩
  · rw [htop]
    exact nlargestBy_sorted _ _ _
  · intro q
    rw [htop, ← absFiltered_eq]
    exact nlargestBy_stable (fun r => r.co2) 10 (absFiltered ds y) q
      absFiltered_co2_isSome

/-- C1 witness: at the sample dataset and year 2014, the iso-column hypothesis
holds and the China record of the output indeed has a non-aggregate iso code. -/
theorem topAbsoluteEmitters_spec_witness :
    sampleDS.hasIso = true ∧
    isAggIso (some "CHN") = false :=
  ⟨rfl,
    (((topAbsoluteEmitters_spec sampleDS 2014).2.1
      ⟨"China", 2014, some 9000, some 7, some "CHN", some 1360000000⟩
      (by decide)).2.2.1) rfl⟩

theorem pcFiltered_pc_isSome {ds : Dataset} {y : Int} :
    ∀ r ∈ pcFiltered ds y, (r.co2_per_capita).isSome :=
  fun _ hr => (mem_pcFiltered hr).2.2.2

set_option maxHeartbeats 1600000 in
/-- C3: for every dataset and ranking year, the Section 10 ranking never
returns a record with population up to 1,000,000 when the population column is
present, excludes records with null `co2_per_capita`, and returns the 10
records with largest `co2_per_capita` descending with stable tie order: the
output and a remainder partition the filtered set, every output value
dominates every remainder value, and the output length is the smaller of 10
and the filtered set's size. -/
theorem topPerCapitaEmitters_spec (ds : Dataset) (y : Int) :
    (topPerCapitaEmitters ds y).length ≤ 10 ∧
    (∀ r ∈ topPerCapitaEmitters ds y,
      r.year = y ∧
      (ds.hasPop = true → ¬∃ p, r.population = some p ∧ p ≤ 1000000) ∧
      r.co2_per_capita ≠ none) ∧
    ((topPerCapitaEmitters ds y).Pairwise (fun a b => co2pcv b ≤ co2pcv a)) ∧
    (∀ q : ℚ, ∃ t,
      (ds.rows.filter (pcKeepPred ds.hasPop y)).filter
          (fun r => decide (co2pcv r = q)) =
        ((topPerCapitaEmitters ds y).filter (fun r => decide (co2pcv r = q))) ++ t) ∧
    (∃ rest : List Record,
      List.Perm (topPerCapitaEmitters ds y ++ rest)
        (ds.rows.filter (pcKeepPred ds.hasPop y)) ∧
      (∀ a ∈ topPerCapitaEmitters ds y, ∀ b ∈ rest, co2pcv b ≤ co2pcv a) ∧
      (topPerCapitaEmitters ds y).length =
        min 10 (ds.rows.filter (pcKeepPred ds.hasPop y)).length) := by
  refine ⟨length_nlargestBy_le _ _ _, ?_, nlargestBy_sorted _ _ _, ?_, ?_⟩
  · intro r hr
    have hm := mem_pcFiltered (mem_of_mem_nlargestBy hr).1
    refine ⟨hm.2.1, ?_, Option.isSome_iff_ne_none.mp hm.2.2.2⟩
    intro hpop
    rintro ⟨p, hp, hle⟩
    have h := hm.2.2.1 hpop
    rw [popGt1M, hp] at h
    simp only [decide_eq_true_eq] at h
    exact absurd hle (not_le.mpr h)
  · intro q
    rw [← pcFiltered_eq]
    exact nlargestBy_stable (fun r => r.co2_per_capita) 10 (pcFiltered ds y) q
      pcFiltered_pc_isSome
  · rw [← pcFiltered_eq]
    exact nlargestBy_largest (fun r => r.co2_per_capita) 10 (pcFiltered ds y)
      pcFiltered_pc_isSome

/-- C3 witness: at the sample dataset and year 2014 the population column is
present and the returned United States record is no micro-state. -/
theorem topPerCapitaEmitters_spec_witness :
    sampleDS.hasPop = true ∧
    ¬∃ p, (some (320000000 : ℚ) : Option ℚ) = some p ∧ p ≤ 1000000 :=
  ⟨rfl,
    ((topPerCapitaEmitters_spec sampleDS 2014).2.1
      ⟨"United States", 2014, some 5000, some 16, some "USA", some 320000000⟩
      (by decide)).2.1 rfl⟩

/-- C10: with a population column present, the per-capita filter keeps only
records whose population is strictly greater than 1,000,000, so a record with
null population never appears in the per-capita ranking. -/
theorem topPerCapita_population_not_null (ds : Dataset) (y : Int)
    (hpop : ds.hasPop = true) :
    ∀ r ∈ topPerCapitaEmitters ds y, ∃ p, r.population = some p ∧ 1000000 < p := by
  intro r hr
  have hm := mem_pcFiltered (mem_of_mem_nlargestBy hr).1
  have h := hm.2.2.1 hpop
  cases hp : r.population with
  | none =>
      rw [popGt1M, hp] at h
      exact absurd h (by simp)
  | some p =>
      rw [popGt1M, hp] at h
      simp only [decide_eq_true_eq] at h
      exact ⟨p, rfl, h⟩

/-- C10 witness: at the sample dataset and year 2014, the returned United
States record has an explicit, large population. -/
theorem topPerCapita_population_not_null_witness :
    sampleDS.hasPop = true ∧
    ∃ p, (some (320000000 : ℚ) : Option ℚ) = some p ∧ 1000000 < p :=
  ⟨rfl,
    topPerCapita_population_not_null sampleDS 2014 rfl
      ⟨"United States", 2014, some 5000, some 16, some "USA", some 320000000⟩
      (by decide)⟩

/-- C4: the Section 8 side-metrics equal the sum and the median of `co2` over
exactly the filtered set used for the ranking: year-matched,
aggregate-excluded, non-null `co2`. -/
theorem topAbsolute_metrics_spec (ds : Dataset) (y : Int) :
    (topAbsoluteEmitters ds y).sumCo2 =
      ((ds.rows.filter (absKeepPred ds.hasIso y)).map co2v).sum ∧
    (topAbsoluteEmitters ds y).medianCo2 =
      medianQ ((ds.rows.filter (absKeepPred ds.hasIso y)).map co2v) := by
  refine ⟨?_, ?_⟩ <;> rw [← absFiltered_eq] <;> rfl

theorem mem_trendSubset {ds : Dataset} {countries : List String} {a b : Int}
    {r : Record} (h : r ∈ trendSubset ds countries a b) :
    r ∈ ds.rows ∧ a ≤ r.year ∧ r.year ≤ b ∧ r.country ∈ countries := by
  rcases List.mem_filter.mp h with ⟨h1, hc⟩
  rcases List.mem_filter.mp h1 with ⟨hrow, hy⟩
  simp only [Bool.and_eq_true, decide_eq_true_eq] at hc hy
  exact ⟨hrow, hy.1, hy.2, hc⟩

theorem trendSeries_mem_elim {ds : Dataset} {focus : String} {a b y : Int}
    {s : SeriesOut} (hs : s ∈ trendSeries ds focus a b y) :
    s.country ∈ (trendSubset ds (focus :: trendComps ds focus y) a b).map
        (fun r => r.country) ∧
    s.isFocus = decide (s.country = focus) ∧
    s.points = (sortAscBy (fun r => r.year)
        ((trendSubset ds (focus :: trendComps ds focus y) a b).filter
          (fun r => decide (r.country = s.country)))).map (fun r => (r.year, r.co2)) := by
  simp only [trendSeries] at hs
  rcases List.mem_map.mp hs with ⟨c, hc, rfl⟩
  exact ⟨mem_uniqueFirst.mp hc, rfl, rfl⟩

theorem trendSubset_filter_country (ds : Dataset) (countries : List String)
    (a b : Int) (c : String) (hc : c ∈ countries) :
    (trendSubset ds countries a b).filter (fun r => decide (r.country = c)) =
      ds.rows.filter (fun r => decide (a ≤ r.year) && decide (r.year ≤ b) &&
        decide (r.country = c)) := by
  rw [trendSubset, List.filter_filter, List.filter_filter]
  refine List.filter_congr (fun r _ => ?_)
  by_cases h : r.country = c
  · have hmem : r.country ∈ countries := h ▸ hc
    simp [h, hmem]
    exact fun _ _ => hc
  · simp [h]

/-- C2: the Section 9 comparison pool is the raw per-year top-8 by `co2` with
no aggregate exclusion reapplied (the only conditions are the ranking year and
a non-null `co2`), the focus country is removed from it, at most 5 peers
remain, and the returned series set never holds more than 6 countries. -/
theorem trendSeries_pool_spec (ds : Dataset) (focus : String)
    (yrMin yrMax rankingYear : Int) :
    trendPool ds rankingYear =
      ((sortDescBy co2v (ds.rows.filter
          (fun r => decide (r.year = rankingYear) && (r.co2).isSome))).take 8).map
        (fun r => r.country) ∧
    focus ∉ trendComps ds focus rankingYear ∧
    (trendComps ds focus rankingYear).length ≤ 5 ∧
    (∀ c ∈ trendComps ds focus rankingYear, c ∈ trendPool ds rankingYear) ∧
    (trendSeries ds focus yrMin yrMax rankingYear).length ≤ 6 := by
  have hlen5 : (trendComps ds focus rankingYear).length ≤ 5 := by
    rw [trendComps]
    exact List.length_take_le 5 _
  refine ⟨?_, ?_, hlen5, ?_, ?_⟩
  · have hf : (ds.rows.filter (fun r => decide (r.year = rankingYear))).filter
        (fun r => (r.co2).isSome) =
        ds.rows.filter (fun r => decide (r.year = rankingYear) && (r.co2).isSome) := by
      rw [List.filter_filter]
      exact List.filter_congr (fun r _ => Bool.and_comm _ _)
    rw [trendPool, nlargestBy, hf]
    rfl
  · intro h
    rw [trendComps] at h
    have h2 := (List.take_sublist _ _).subset h
    have h3 := (List.mem_filter.mp h2).2
    simp at h3
  · intro c hcm
    rw [trendComps] at hcm
    exact List.mem_of_mem_filter ((List.take_sublist _ _).subset hcm)
  · have hsub : ∀ x ∈ (trendSubset ds (focus :: trendComps ds focus rankingYear)
        yrMin yrMax).map (fun r => r.country),
        x ∈ focus :: trendComps ds focus rankingYear := by
      intro x hx
      rcases List.mem_map.mp hx with ⟨r, hr, rfl⟩
      exact (mem_trendSubset hr).2.2.2
    have h6 := length_uniqueFirst_le hsub
    simp only [trendSeries, List.length_map]
    refine le_trans h6 ?_
    simp only [List.length_cons]
    omega

/-- C2 witness: at the sample dataset the aggregate row "World" is a peer of
the United States — the aggregate exclusion is indeed not reapplied — and it
belongs to the pool. -/
theorem trendSeries_pool_spec_witness :
    ("World" ∈ trendComps sampleDS "United States" 2014) ∧
    ("World" ∈ trendPool sampleDS 2014) :=
  ⟨by decide,
    (trendSeries_pool_spec sampleDS "United States" 2000 2020 2014).2.2.2.1
      "World" (by decide)⟩

/-- C5: every returned series belongs to the focus-plus-peers set, its points
are sorted ascending by year, and they are exactly the (year, co2) pairs of
the dataset's rows for that country within the inclusive year range. -/
theorem trendSeries_series_spec (ds : Dataset) (focus : String)
    (yrMin yrMax rankingYear : Int) :
    ∀ s ∈ trendSeries ds focus yrMin yrMax rankingYear,
      s.country ∈ focus :: trendComps ds focus rankingYear ∧
      s.points.Pairwise (fun p q => p.1 ≤ q.1) ∧
      List.Perm s.points
        ((ds.rows.filter (fun r => decide (yrMin ≤ r.year) && decide (r.year ≤ yrMax) &&
            decide (r.country = s.country))).map (fun r => (r.year, r.co2))) := by
  intro s hs
  have he := trendSeries_mem_elim hs
  have hcountry : s.country ∈ focus :: trendComps ds focus rankingYear := by
    rcases List.mem_map.mp he.1 with ⟨r, hr, hrc⟩
    exact hrc ▸ (mem_trendSubset hr).2.2.2
  refine ⟨hcountry, ?_, ?_⟩
  · rw [he.2.2]
    exact List.pairwise_map.mpr (sortAscBy_sorted (fun r : Record => r.year) _)
  · rw [he.2.2, ← trendSubset_filter_country ds _ yrMin yrMax s.country hcountry]
    exact (sortAscBy_perm (fun r : Record => r.year) _).map _

/-- The series the sample dataset produces for the United States in the
2000-2020 window. -/
def sampleUSSeries : SeriesOut :=
  ⟨"United States", true, [(2010, some 5400), (2014, some 5000)]⟩

/-- C5 witness: the concrete United States series of the sample dataset is in
the output and satisfies the three clauses. -/
theorem trendSeries_series_spec_witness :
    (sampleUSSeries ∈ trendSeries sampleDS "United States" 2000 2020 2014) ∧
    (sampleUSSeries.country ∈
      "United States" :: trendComps sampleDS "United States" 2014 ∧
    sampleUSSeries.points.Pairwise (fun p q => p.1 ≤ q.1) ∧
    List.Perm sampleUSSeries.points
      ((sampleDS.rows.filter (fun r => decide ((2000:Int) ≤ r.year) &&
          decide (r.year ≤ (2020:Int)) &&
          decide (r.country = sampleUSSeries.country))).map (fun r => (r.year, r.co2)))) :=
  ⟨by decide,
    trendSeries_series_spec sampleDS "United States" 2000 2020 2014
      sampleUSSeries (by decide)⟩

/-- C6: with an empty comparison pool only the focus country's series can be
returned with an empty peer list; whenever the focus country has rows in the
year range its series is present and marked, and the focus mark identifies
exactly the focus country's series. -/
theorem trendSeries_focus_spec (ds : Dataset) (focus : String)
    (yrMin yrMax rankingYear : Int) :
    (trendPool ds rankingYear = [] →
      trendComps ds focus rankingYear = [] ∧
      ∀ s ∈ trendSeries ds focus yrMin yrMax rankingYear, s.country = focus) ∧
    ((∃ r ∈ ds.rows, r.country = focus ∧ yrMin ≤ r.year ∧ r.year ≤ yrMax) →
      ∃ s ∈ trendSeries ds focus yrMin yrMax rankingYear,
        s.country = focus ∧ s.isFocus = true) ∧
    (∀ s ∈ trendSeries ds focus yrMin yrMax rankingYear,
      (s.isFocus = true ↔ s.country = focus)) := by
  refine ⟨?_, ?_, ?_⟩
  · intro hpool
    have hcomps : trendComps ds focus rankingYear = [] := by
      rw [trendComps, hpool]
      rfl
    refine ⟨hcomps, ?_⟩
    intro s hs
    have he := trendSeries_mem_elim hs
    rcases List.mem_map.mp he.1 with ⟨r, hr, hrc⟩
    have hmem := (mem_trendSubset hr).2.2.2
    rw [hcomps] at hmem
    rcases List.mem_singleton.mp hmem with h
    rw [← hrc]
    exact h
  · rintro ⟨r, hr, hcty, hy1, hy2⟩
    have hrsub : r ∈ trendSubset ds (focus :: trendComps ds focus rankingYear)
        yrMin yrMax := by
      refine List.mem_filter.mpr ⟨List.mem_filter.mpr ⟨hr, ?_⟩, ?_⟩
      · simp [hy1, hy2]
      · simp [hcty]
    have hcode : focus ∈ (trendSubset ds (focus :: trendComps ds focus rankingYear)
        yrMin yrMax).map (fun r => r.country) :=
      List.mem_map.mpr ⟨r, hrsub, hcty⟩
    refine ⟨_, List.mem_map_of_mem _ (mem_uniqueFirst.mpr hcode), rfl, by simp⟩
  · intro s hs
    have he := trendSeries_mem_elim hs
    rw [he.2.1]
    simp

/-- C6 witness: at the sample dataset with ranking year 1800 the pool is
empty, the peers are empty, and the focus country's series is present and
marked for the 2000-2020 window. -/
theorem trendSeries_focus_spec_witness :
    trendPool sampleDS 1800 = [] ∧
    trendComps sampleDS "United States" 1800 = [] ∧
    (∃ r ∈ sampleDS.rows, r.country = "United States" ∧
      (2000:Int) ≤ r.year ∧ r.year ≤ (2020:Int)) ∧
    (∃ s ∈ trendSeries sampleDS "United States" 2000 2020 1800,
      s.country = "United States" ∧ s.isFocus = true) :=
  ⟨by decide,
    ((trendSeries_focus_spec sampleDS "United States" 2000 2020 1800).1 (by decide)).1,
    by decide,
    (trendSeries_focus_spec sampleDS "United States" 2000 2020 1800).2.1 (by decide)⟩

/-- C7: a run halts with a blocking load error exactly when the fetch errors
or a required column is absent; a filter that matches nothing is not an error
and yields empty rankings. -/
theorem load_error_spec (fetch : Except String RawTable) (y : Int) (focus : String)
    (yrMin yrMax : Int) :
    ((∃ e, runApp fetch y focus yrMin yrMax = .error e) ↔
      (∃ msg, fetch = .error msg) ∨
      (∃ t, fetch = .ok t ∧ ∃ c ∈ requiredCols, t.cols.contains c = false)) ∧
    (∀ ds : Dataset, (∀ r ∈ ds.rows, r.year ≠ y) →
      (topAbsoluteEmitters ds y).top = [] ∧ topPerCapitaEmitters ds y = []) := by
  constructor
  · cases fetch with
    | error msg => simp [runApp, loadAndValidate, Except.map]
    | ok t =>
        cases hfind : requiredCols.find? (fun c => !(t.cols.contains c)) with
        | some c =>
            have hc := List.find?_some hfind
            have hmem := List.mem_of_find?_eq_some hfind
            have hcf : t.cols.contains c = false := by
              cases hcc : t.cols.contains c
              · rfl
              · rw [hcc] at hc
                exact absurd hc (by simp)
            have hrun : runApp (Except.ok t) y focus yrMin yrMax =
                Except.error (LoadError.missingColumn c) := by
              simp only [runApp, loadAndValidate, hfind]
              rfl
            constructor
            · intro _
              exact Or.inr ⟨t, rfl, c, hmem, hcf⟩
            · intro _
              exact ⟨LoadError.missingColumn c, hrun⟩
        | none =>
            have hall := List.find?_eq_none.mp hfind
            have hrun : runApp (Except.ok t) y focus yrMin yrMax =
                Except.ok
                  { tab8 := topAbsoluteEmitters
                      ⟨cleanRows t.rows, t.cols.contains "iso_code",
                        t.cols.contains "population"⟩ y
                    tab9 := trendSeries
                      ⟨cleanRows t.rows, t.cols.contains "iso_code",
                        t.cols.contains "population"⟩ focus yrMin yrMax y
                    tab10 := topPerCapitaEmitters
                      ⟨cleanRows t.rows, t.cols.contains "iso_code",
                        t.cols.contains "population"⟩ y } := by
              simp only [runApp, loadAndValidate, hfind]
              rfl
            constructor
            · rintro ⟨e, he⟩
              rw [hrun] at he
              exact absurd he (by simp)
            · rintro (⟨msg, hmsg⟩ | ⟨t', ht', c, hcmem, hcf⟩)
              · exact absurd hmsg (by simp)
              · have ht2 : t = t' := by
                  injection ht'
                subst ht2
                have := hall c hcmem
                rw [hcf] at this
                simp at this
  · intro ds hds
    have habs : absFiltered ds y = [] := by
      rw [absFiltered_eq]
      refine List.filter_eq_nil_iff.mpr ?_
      intro r hr
      simp [absKeepPred, hds r hr]
    have hpc : pcFiltered ds y = [] := by
      rw [pcFiltered_eq]
      refine List.filter_eq_nil_iff.mpr ?_
      intro r hr
      simp [pcKeepPred, hds r hr]
    constructor
    · show nlargestBy (fun r => r.co2) 10 (absFiltered ds y) = []
      rw [habs]
      rfl
    · show nlargestBy (fun r => r.co2_per_capita) 10 (pcFiltered ds y) = []
      rw [hpc]
      rfl

/-- C7 witness: the sample dataset has no rows in 1800, and both rankings for
that year are empty rather than an error. -/
theorem load_error_spec_witness :
    (∀ r ∈ sampleDS.rows, r.year ≠ (1800 : Int)) ∧
    (topAbsoluteEmitters sampleDS 1800).top = [] ∧
    topPerCapitaEmitters sampleDS 1800 = [] :=
  ⟨by decide,
    (load_error_spec (.error "net down") 1800 "United States" 2000 2020).2
      sampleDS (by decide)⟩

/-- A small raw table: one fully populated row, one with a null country, one
with a null year. -/
def sampleRawRows : List RawRecord :=
  [⟨some "United States", some 2014, some 5000, some 16, some "USA", some 320000000⟩,
   ⟨none, some 2014, some 1, none, none, none⟩,
   ⟨some "Ghostland", none, some 2, none, none, none⟩]

/-- C8: the basic clean retains exactly the raw rows with non-null country and
year (year coerced to an integer), and the three queries are read-only views
of the snapshot: every record they return is one of the dataset's rows. -/
theorem clean_invariant_spec (rs : List RawRecord) (ds : Dataset) (y : Int)
    (focus : String) (yrMin yrMax : Int) :
    (cleanRows rs =
      (rs.filter (fun r => (r.country).isSome && (r.year).isSome)).map forceRow) ∧
    (∀ r ∈ (topAbsoluteEmitters ds y).top, r ∈ ds.rows) ∧
    (∀ r ∈ topPerCapitaEmitters ds y, r ∈ ds.rows) ∧
    (∀ s ∈ trendSeries ds focus yrMin yrMax y, ∀ p ∈ s.points,
      ∃ r ∈ ds.rows, r.country = s.country ∧ r.year = p.1 ∧ r.co2 = p.2) := by
  refine ⟨cleanRows_eq rs, ?_, ?_, ?_⟩
  · intro r hr
    exact (mem_absFiltered (mem_of_mem_nlargestBy hr).1).1
  · intro r hr
    exact (mem_pcFiltered (mem_of_mem_nlargestBy hr).1).1
  · intro s hs p hp
    have he := trendSeries_mem_elim hs
    rw [he.2.2] at hp
    rcases List.mem_map.mp hp with ⟨r, hr, hpr⟩
    have hr2 : r ∈ (trendSubset ds (focus :: trendComps ds focus y) yrMin yrMax).filter
        (fun r => decide (r.country = s.country)) :=
      (sortAscBy_perm (fun r : Record => r.year) _).subset hr
    have hr3 := List.mem_filter.mp hr2
    have hr4 := mem_trendSubset hr3.1
    refine ⟨r, hr4.1, ?_, ?_, ?_⟩
    · simpa using hr3.2
    · rw [← hpr]
    · rw [← hpr]

/-- C8 witness: the concrete clean of the sample raw rows and a concrete
record returned by the absolute ranking that is one of the dataset's rows. -/
theorem clean_invariant_spec_witness :
    (cleanRows sampleRawRows =
      (sampleRawRows.filter (fun r => (r.country).isSome && (r.year).isSome)).map
        forceRow) ∧
    ((⟨"China", 2014, some 9000, some 7, some "CHN", some 1360000000⟩ : Record) ∈
      sampleDS.rows) :=
  ⟨(clean_invariant_spec sampleRawRows sampleDS 2014 "United States" 2000 2020).1,
    (clean_invariant_spec sampleRawRows sampleDS 2014 "United States" 2000 2020).2.1
      ⟨"China", 2014, some 9000, some 7, some "CHN", some 1360000000⟩ (by decide)⟩

/-- C9: each operation is a deterministic pure function of the dataset
snapshot and the parameters: equal snapshots give equal outputs. -/
theorem operations_deterministic (ds ds' : Dataset) (y : Int) (focus : String)
    (yrMin yrMax : Int) (hrows : ds.rows = ds'.rows) (hiso : ds.hasIso = ds'.hasIso)
    (hpop : ds.hasPop = ds'.hasPop) :
    topAbsoluteEmitters ds y = topAbsoluteEmitters ds' y ∧
    trendSeries ds focus yrMin yrMax y = trendSeries ds' focus yrMin yrMax y ∧
    topPerCapitaEmitters ds y = topPerCapitaEmitters ds' y := by
  cases ds
  cases ds'
  cases hrows
  cases hiso
  cases hpop
  exact ⟨rfl, rfl, rfl⟩

/-- C9 witness: determinism at the sample dataset and concrete parameters. -/
theorem operations_deterministic_witness :
    sampleDS.rows = sampleDS.rows ∧
    (topAbsoluteEmitters sampleDS 2014 = topAbsoluteEmitters sampleDS 2014 ∧
    trendSeries sampleDS "United States" 2000 2020 2014 =
      trendSeries sampleDS "United States" 2000 2020 2014 ∧
    topPerCapitaEmitters sampleDS 2014 = topPerCapitaEmitters sampleDS 2014) :=
  ⟨rfl, operations_deterministic sampleDS sampleDS 2014 "United States" 2000 2020
    rfl rfl rfl⟩

end CO2Dash
